import Mathlib

/-!
Shallow embedding of the crop-segmentation pipeline
(scrocha/crop-segmentation-models) and proofs about it.

Sources embedded:
- 02_agregar_npz_em_shp.py : polygon extraction from NPZ masks and
  aggregation of the per-tile polygons into one catalog.
- 03_filtrar_mascaras.py   : size-band and MapBiomas-overlap filter.
- 04_analise_heterogeniedade.py : per-polygon NDVI statistics.
- 05_analise_cobertura.py  : pixel-area model and recall/precision.

Conventions: machine floats are modelled by ℚ (with ℝ only where the code
takes a square root or a cosine); raster clipping (rasterio.mask.mask) is
modelled by tagging each clipped pixel with its value and a flag telling
whether it lies inside the geometry footprint (pixels outside the footprint
are filled with the nodata value, 0 for these rasters); fallible library
calls are modelled with Option.
-/

/- ------------------------------------------------------------------
   03_filtrar_mascaras.py
   ------------------------------------------------------------------ -/

/-- The MapBiomas agriculture class codes (same list in
03_filtrar_mascaras.py and 05_analise_cobertura.py). -/
def CLASSES_MAPBIOMAS_AGRICULTURA : List ℤ :=
  [18, 19, 39, 20, 40, 62, 41, 36, 46, 47, 35, 48]

/-- One pixel of a raster clip produced by rasterio.mask.mask with
crop=True, filled=True: `value` is the raster value and `inFootprint`
tells whether the pixel center is inside the clipping geometry.  Pixels
outside the footprint are filled with the nodata value (0 here). -/
structure ClipPixel where
  value : ℤ
  inFootprint : Bool
deriving DecidableEq

/-- The value actually stored in the filled clip array for a pixel
(out-of-footprint pixels get the fill value 0). -/
def filledValue (p : ClipPixel) : ℤ :=
  if p.inFootprint then p.value else 0

/-- get_agriculture_coverage (03_filtrar_mascaras.py, lines 26-52):
`total_pixels = np.count_nonzero(out_image)`; return 0 when it is 0,
otherwise `(agri_pixels / total_pixels) * 100` with
`agri_pixels = np.isin(out_image, CLASSES_MAPBIOMAS_AGRICULTURA).sum()`.
The clip is the flattened filled array. -/
def get_agriculture_coverage (clip : List ClipPixel) : ℚ :=
  let img := clip.map filledValue
  let total_pixels := img.countP (fun v => decide (v ≠ 0))
  if total_pixels = 0 then 0
  else
    let agri_pixels := img.countP (fun v => decide (v ∈ CLASSES_MAPBIOMAS_AGRICULTURA))
    ((agri_pixels : ℚ) / (total_pixels : ℚ)) * 100

/-- A polygon as seen by filtrar_mascaras: its stored `area_ha`
attribute and the clip of the MapBiomas raster to its footprint. -/
structure FiltPoly where
  area_ha : ℚ
  clip : List ClipPixel
deriving DecidableEq

/-- filtrar_mascaras (03_filtrar_mascaras.py, lines 55-104): first the
size band `area_min_ha <= area_ha <= area_max_ha`, then keep the rows
whose agriculture coverage is `>= agri_pct_min`. -/
def filtrar_mascaras (polys : List FiltPoly)
    (area_min_ha area_max_ha agri_pct_min : ℚ) : List FiltPoly :=
  let gdf_filtrado := polys.filter
    (fun p => decide (area_min_ha ≤ p.area_ha ∧ p.area_ha ≤ area_max_ha))
  gdf_filtrado.filter
    (fun p => decide (agri_pct_min ≤ get_agriculture_coverage p.clip))

/-- Overlap fraction as the specification words it: N = count of
in-footprint pixels whose class is in the target group, D = count of ALL
in-footprint (non-masked) pixels, overlap = 100·N/D, 0 when D = 0. -/
def coverageSpec (clip : List ClipPixel) : ℚ :=
  let D := clip.countP (fun p => p.inFootprint)
  let N := clip.countP
    (fun p => p.inFootprint && decide (p.value ∈ CLASSES_MAPBIOMAS_AGRICULTURA))
  if D = 0 then 0 else 100 * (N : ℚ) / (D : ℚ)

/-- Overlap fraction the code actually computes, in closed form: D counts
only the pixels whose filled value is nonzero (class-0 pixels inside the
footprint are excluded together with the fill), N counts the pixels whose
filled value is an agriculture class. -/
def coverageAmended (clip : List ClipPixel) : ℚ :=
  let D := clip.countP (fun p => decide (filledValue p ≠ 0))
  let N := clip.countP
    (fun p => decide (filledValue p ∈ CLASSES_MAPBIOMAS_AGRICULTURA))
  if D = 0 then 0 else 100 * (N : ℚ) / (D : ℚ)

/- ------------------------------------------------------------------
   05_analise_cobertura.py
   ------------------------------------------------------------------ -/

/-- One pixel of the full MapBiomas raster grid as used by
05_analise_cobertura.py: its class value and whether it lies inside the
AOI geometry (used only by calcular_area_agricola_total, which clips to
the AOI; calcular_metricas_segmentacao reads the full band). -/
structure EvalPixel where
  value : ℤ
  inAOI : Bool
deriving DecidableEq

/-- get_pixel_area_m2 (05_analise_cobertura.py, lines 24-37): planar CRS
gives `abs(res0*res1)`; a geographic CRS replaces it with
`abs((res0*111320*cos(lat_centro_rad))*(res1*111320))` where lat_centro
is the mean of the raster bottom and top bounds (np.radians converts
degrees to radians). -/
noncomputable def get_pixel_area_m2 (res0 res1 : ℝ) (is_geographic : Bool)
    (bottom top : ℝ) : ℝ :=
  let pixel_area_m2 := |res0 * res1|
  if is_geographic then
    let lat_centro := (bottom + top) / 2
    let fator_correcao := Real.cos (lat_centro * Real.pi / 180)
    let metros_por_grau : ℝ := 111320
    |res0 * metros_por_grau * fator_correcao * (res1 * metros_por_grau)|
  else pixel_area_m2

/-- calcular_area_agricola_total (05_analise_cobertura.py, lines 40-59):
clip the raster to the AOI (fill value 0 outside), count the pixels with
an agriculture class, multiply by the pixel area and convert to
hectares.  The ValueError branch (AOI not overlapping the raster)
returns 0, which coincides with this count being 0. -/
def calcular_area_agricola_total (pixels : List EvalPixel)
    (pixel_area_m2 : ℚ) : ℚ :=
  ((pixels.countP
      (fun p => p.inAOI && decide (p.value ∈ CLASSES_MAPBIOMAS_AGRICULTURA)) : ℚ)
    * pixel_area_m2) / 10000

/-- Python's enumerate: pair each list element with its index, starting
at `n`. -/
def enumIdx {α : Type} : ℕ → List α → List (ℕ × α)
  | _, [] => []
  | n, a :: l => (n, a) :: enumIdx (n + 1) l

/-- rasterio.features.rasterize on the catalog geometries (each geometry
given by the set of pixel indices it covers).  rasterize raises
ValueError when it is given no geometry at all, modelled by `none`;
otherwise a pixel is burnt iff some geometry covers it. -/
def rasterize_catalog (catalog : List (List ℕ)) : Option (ℕ → Bool) :=
  if catalog.isEmpty then none
  else some (fun i => catalog.any (fun g => g.contains i))

/-- The recall/precision record returned by
calcular_metricas_segmentacao. -/
structure Metrics where
  recall_pct : ℚ
  precision_pct : ℚ
deriving DecidableEq

/-- calcular_metricas_segmentacao (05_analise_cobertura.py, lines
62-105): rasterize the catalog onto the full raster grid (ValueError on
an empty catalog propagates, modelled by `none`), intersect with the
agriculture reference mask of the FULL band (no AOI clipping here),
convert pixel counts to hectares, and form
`recall = inter/area_total*100` (0 unless `area_total > 0`) and
`precision = inter/segmented*100` (0 unless `segmented > 0`). -/
def calcular_metricas_segmentacao (catalog : List (List ℕ))
    (pixels : List EvalPixel) (pixel_area_m2 : ℚ)
    (area_total_agricola_ha : ℚ) : Option Metrics :=
  match rasterize_catalog catalog with
  | none => none
  | some seg =>
    let pixel_area_ha := pixel_area_m2 / 10000
    let inter := (enumIdx 0 pixels).countP
      (fun ip => seg ip.1 && decide (ip.2.value ∈ CLASSES_MAPBIOMAS_AGRICULTURA))
    let segN := (enumIdx 0 pixels).countP (fun ip => seg ip.1)
    let area_segmentada_corretamente_ha := (inter : ℚ) * pixel_area_ha
    let area_total_segmentada_ha := (segN : ℚ) * pixel_area_ha
    let recall_pct :=
      if area_total_agricola_ha > 0 then
        area_segmentada_corretamente_ha / area_total_agricola_ha * 100
      else 0
    let precision_pct :=
      if area_total_segmentada_ha > 0 then
        area_segmentada_corretamente_ha / area_total_segmentada_ha * 100
      else 0
    some ⟨recall_pct, precision_pct⟩

/-- Outcome of the main flow of 05_analise_cobertura.py. -/
inductive RunResult where
  | refZeroError : RunResult
  | rasterizeError : RunResult
  | report : Metrics → RunResult
deriving DecidableEq

/-- main (05_analise_cobertura.py, lines 108-124): compute the reference
area; when it is 0 print the distinct critical-error message and return
(no metrics); otherwise run calcular_metricas_segmentacao — whose
ValueError on an empty catalog is NOT caught, aborting the stage — and
report the metrics. -/
def analise_main (catalog : List (List ℕ)) (pixels : List EvalPixel)
    (pixel_area_m2 : ℚ) : RunResult :=
  let area_total_ha := calcular_area_agricola_total pixels pixel_area_m2
  if area_total_ha = 0 then RunResult.refZeroError
  else
    match calcular_metricas_segmentacao catalog pixels pixel_area_m2 area_total_ha with
    | none => RunResult.rasterizeError
    | some m => RunResult.report m

/- ------------------------------------------------------------------
   04_analise_heterogeniedade.py
   ------------------------------------------------------------------ -/

/-- One pixel of the reflectance clip used by calcular_ndvi_stats: red
and NIR band values and whether the pixel is inside the polygon
footprint (mask(..., filled=False) masks the outside pixels). -/
structure NdviPixel where
  red : ℚ
  nir : ℚ
  inFootprint : Bool
deriving DecidableEq

/-- The epsilon added to the NDVI denominator in
04_analise_heterogiedade.py: 1e-6. -/
def NDVI_EPS : ℚ := 1 / 1000000

/-- One cell of the masked NDVI array
`np.ma.masked_invalid((nir - red) / (nir + red + 1e-6))`: `none` when the
pixel is masked, either because it is outside the footprint or because
the float division produced a non-finite value (denominator 0). -/
def ndvi_value (p : NdviPixel) : Option ℚ :=
  if p.inFootprint then
    let den := p.nir + p.red + NDVI_EPS
    if den = 0 then none
    else some ((p.nir - p.red) / den)
  else none

/-- The filter `ndvi[~ndvi.mask & (ndvi >= -1) & (ndvi <= 1)]` applied
to one cell: keep the value only when it is unmasked and in [-1, 1]. -/
def valid_ndvi (p : NdviPixel) : Option ℚ :=
  match ndvi_value p with
  | none => none
  | some v => if -1 ≤ v ∧ v ≤ 1 then some v else none

/-- `pixels_validos = ndvi[...].compressed()`: the surviving NDVI
values. -/
def pixels_validos (l : List NdviPixel) : List ℚ :=
  l.filterMap valid_ndvi

/-- Boolean form of the pixel-validity test, for counting. -/
def ndviValidB (p : NdviPixel) : Bool :=
  p.inFootprint && decide (p.nir + p.red + NDVI_EPS ≠ 0)
    && decide (-1 ≤ (p.nir - p.red) / (p.nir + p.red + NDVI_EPS))
    && decide ((p.nir - p.red) / (p.nir + p.red + NDVI_EPS) ≤ 1)

/-- np.mean of the valid values. -/
def ndvi_mean (v : List ℚ) : ℚ := v.sum / (v.length : ℚ)

/-- The square of np.std of the valid values (population variance). -/
def ndvi_var (v : List ℚ) : ℚ :=
  ((v.map (fun x => (x - ndvi_mean v) ^ 2)).sum) / (v.length : ℚ)

/-- np.std of the valid values. -/
noncomputable def ndvi_std (v : List ℚ) : ℝ :=
  Real.sqrt ((ndvi_var v : ℚ) : ℝ)

/-- The coefficient of variation the code attaches:
`(np.std / np.mean) * 100 if np.mean != 0 else 0`. -/
noncomputable def ndvi_cv (v : List ℚ) : ℝ :=
  if (ndvi_mean v : ℚ) ≠ 0 then (ndvi_std v / ((ndvi_mean v : ℚ) : ℝ)) * 100
  else 0

/-- calcular_ndvi_stats (04_analise_heterogiedade.py, lines 17-50),
reduced to the (mean, variance) pair from which the attached statistics
are derived (ndvi_mean, ndvi_std = sqrt of the variance, ndvi_cv; the
percentiles are further order statistics of the same valid list).
Returns `none` when the clip is empty or when fewer than 10 valid
pixels remain; any exception also yields None in the source. -/
def calcular_ndvi_stats (l : List NdviPixel) : Option (ℚ × ℚ) :=
  if l.isEmpty then none
  else
    let v := pixels_validos l
    if v.length < 10 then none
    else some (ndvi_mean v, ndvi_var v)

/- ------------------------------------------------------------------
   02_agregar_npz_em_shp.py : per-feature repair, ids, aggregation
   ------------------------------------------------------------------ -/

/-- AREA_MIN = 100 square meters (02_agregar_npz_em_shp.py, line 15). -/
def AREA_MIN : ℚ := 100

/-- One raw traced geometry as the shapes loop sees it:
`constructionOk` models whether `Polygon(polygon['coordinates'][0])`
succeeded (the surrounding try swallows its exceptions), `isValid` and
`area` describe the constructed exterior-ring polygon, `bufferValid` and
`bufferArea` describe the result of `geom.buffer(0)` (shapely, treated
as exogenous data of the repair call). -/
structure RawGeom where
  constructionOk : Bool
  isValid : Bool
  area : ℚ
  bufferValid : Bool
  bufferArea : ℚ
deriving DecidableEq

/-- The keep decision of the inner loop of converter_npz_para_shp
(02_agregar_npz_em_shp.py, lines 72-88): construct the polygon, apply
`buffer(0)` when it is invalid, and append it iff the (possibly
repaired) geometry is valid and its area is `>= AREA_MIN`.  Returns the
area of the geometry that is appended, `none` when the feature is
skipped.  No area-change tolerance is tested and nothing is counted for
a skipped feature. -/
def keepGeom (g : RawGeom) : Option ℚ :=
  if ¬g.constructionOk then none
  else if g.isValid then
    if AREA_MIN ≤ g.area then some g.area else none
  else
    if g.bufferValid ∧ AREA_MIN ≤ g.bufferArea then some g.bufferArea
    else none

/-- Decimal digit to character. -/
def digitChar10 (d : ℕ) : Char :=
  match d with
  | 0 => '0' | 1 => '1' | 2 => '2' | 3 => '3' | 4 => '4'
  | 5 => '5' | 6 => '6' | 7 => '7' | 8 => '8' | _ => '9'

/-- Character to decimal digit; 10 for a non-digit character. -/
def charVal10 (c : Char) : ℕ :=
  match c with
  | '0' => 0 | '1' => 1 | '2' => 2 | '3' => 3 | '4' => 4
  | '5' => 5 | '6' => 6 | '7' => 7 | '8' => 8 | '9' => 9
  | _ => 10

/-- Decimal-digit test used by the id-injectivity argument. -/
def isDigit10 (c : Char) : Bool := decide (charVal10 c ≠ 10)

/-- Python str() of a nonnegative integer, as a character list
(most-significant digit first, no leading zeros, "0" for 0). -/
def natRepr (n : ℕ) : List Char :=
  if n = 0 then ['0'] else ((Nat.digits 10 n).map digitChar10).reverse

/-- Decode a decimal character list back to a number. -/
def decodeNat (l : List Char) : ℕ :=
  Nat.ofDigits 10 (l.reverse.map charVal10)

/-- The underscore used by the f-string id format. -/
def underscoreChar : Char := '_'

/-- The feature id `f"{patch_name}_{mask_id}_{i}"`
(02_agregar_npz_em_shp.py, line 80). -/
def mkMaskId (p : List Char) (m i : ℕ) : List Char :=
  p ++ underscoreChar :: natRepr m ++ underscoreChar :: natRepr i

/-- The '_masks' suffix stripped from NPZ stems. -/
def masksSuffix : List Char := [underscoreChar, 'm', 'a', 's', 'k', 's']

/-- patch_name derivation (02_agregar_npz_em_shp.py, lines 39-43):
strip a trailing '_masks' from the NPZ stem, else keep the stem. -/
def patchName (stem : List Char) : List Char :=
  if masksSuffix.isSuffixOf stem then stem.take (stem.length - 6) else stem

/-- One row of the aggregated catalog: the id and patch attributes, the
shapely area of the stored geometry (`geomArea`, m² of the tile CRS),
the stored `area_ha = geom.area / 10000`, and `frameCrs`, the CRS whose
coordinates the stored geometry is actually expressed in (the tile CRS
it was traced in: the script never calls to_crs). -/
structure CatalogEntry where
  mask_id : List Char
  patch_orig : List Char
  geomArea : ℚ
  area_ha : ℚ
  frameCrs : ℕ
deriving DecidableEq

/-- The catalog row appended for a kept geometry. -/
def entryOf (p : List Char) (crs : ℕ) (m i : ℕ) (a : ℚ) : CatalogEntry :=
  { mask_id := mkMaskId p m i, patch_orig := p, geomArea := a,
    area_ha := a / 10000, frameCrs := crs }

/-- One NPZ archive together with its tile raster metadata: the archive
stem, whether the matching patch raster exists (otherwise the file is
skipped with a warning), the tile CRS read from that raster, and the
masks array (one list of raw traced shapes per mask; the shapes call
uses mask=mask_binary, so every emitted shape has value 1 and the
`value == 1` test always passes). -/
structure NpzFile where
  stem : List Char
  patchExists : Bool
  patchCrs : ℕ
  masks : List (List RawGeom)
deriving DecidableEq

/-- The rows contributed by one NPZ file: the double loop
`for mask_id, mask_array in enumerate(masks)` /
`for i, (polygon, value) in enumerate(polygons)` with the keep decision
of keepGeom (02_agregar_npz_em_shp.py, lines 61-88). -/
def fileEntries (f : NpzFile) : List CatalogEntry :=
  (enumIdx 0 f.masks).flatMap (fun mi =>
    (enumIdx 0 mi.2).flatMap (fun ig =>
      match keepGeom ig.2 with
      | some a => [entryOf (patchName f.stem) f.patchCrs mi.1 ig.1 a]
      | none => []))

/-- The aggregation loop of converter_npz_para_shp: walk the NPZ files,
skip a file whose patch raster is missing, record the CRS of the first
processed file as `crs_final`, and append each file's rows unchanged
(geometries stay in their native tile frame; no reprojection).  Returns
the rows and the final `crs_final` label given to the GeoDataFrame. -/
def converterGo : List NpzFile → Option ℕ → List CatalogEntry × Option ℕ
  | [], c => ([], c)
  | f :: rest, c =>
    if f.patchExists then
      (fileEntries f ++ (converterGo rest (some (c.getD f.patchCrs))).1,
        (converterGo rest (some (c.getD f.patchCrs))).2)
    else converterGo rest c

/-- converter_npz_para_shp (02_agregar_npz_em_shp.py, lines 18-116):
the aggregation with no CRS seen yet.  The first component is the
catalog contents, the second the CRS the output GeoDataFrame is
labelled with. -/
def converter_npz_para_shp (files : List NpzFile) :
    List CatalogEntry × Option ℕ :=
  converterGo files none

/- ------------------------------------------------------------------
   02_agregar_npz_em_shp.py : pixel-grid model of shapes / rasterize
   ------------------------------------------------------------------ -/

/-- A pixel position on an h×w grid. -/
abbrev Cell (h w : ℕ) := Fin h × Fin w

/-- 4-connectivity of grid cells (the connectivity rasterio
features.shapes uses by default). -/
def cellAdj {h w : ℕ} (p q : Cell h w) : Bool :=
  (decide (p.1 = q.1)
      && (decide (p.2.val + 1 = q.2.val) || decide (q.2.val + 1 = p.2.val)))
    || (decide (p.2 = q.2)
      && (decide (p.1.val + 1 = q.1.val) || decide (q.1.val + 1 = p.1.val)))

/-- One breadth step of a flood fill inside `allowed`. -/
def grow {h w : ℕ} (allowed : Finset (Cell h w)) (s : Finset (Cell h w)) :
    Finset (Cell h w) :=
  s ∪ allowed.filter (fun q => ∃ p ∈ s, cellAdj p q = true)

/-- The cells reachable from `start` by 4-connected steps inside
`allowed` (h*w steps saturate the grid). -/
def reachable {h w : ℕ} (allowed start : Finset (Cell h w)) :
    Finset (Cell h w) :=
  (grow allowed)^[h * w] start

/-- The connected foreground component of cell `c` in the binary mask
`fg`. -/
def component {h w : ℕ} (fg : Finset (Cell h w)) (c : Cell h w) :
    Finset (Cell h w) :=
  reachable fg {c}

/-- Cells on the border of the grid. -/
def isBorderCell {h w : ℕ} (p : Cell h w) : Bool :=
  decide (p.1.val = 0) || decide (p.1.val = h - 1)
    || decide (p.2.val = 0) || decide (p.2.val = w - 1)

/-- The pixel footprint of the exterior ring of a traced component `C`:
`C` together with every cell that cannot reach the grid border without
crossing `C` (the holes of `C` and anything inside them).  This is what
`Polygon(polygon['coordinates'][0])` keeps: the exterior ring only, so
interior rings (holes) reported by shapes are discarded and their
pixels are covered. -/
def fillOf {h w : ℕ} (C : Finset (Cell h w)) : Finset (Cell h w) :=
  let outsideC := Finset.univ.filter (fun q => q ∉ C)
  let escaped := reachable outsideC (outsideC.filter (fun p => isBorderCell p))
  C ∪ outsideC.filter (fun q => q ∉ escaped)

/-- The positive-pixel set obtained by rasterizing the polygons the
extraction loop keeps from the mask `fg` (pixel area `a` m², so a
component footprint F has `geom.area = F.card * a`): shapes yields one
polygon per connected foreground component, the code keeps its
exterior-ring footprint when its area is at least AREA_MIN, and
rasterizing the kept polygons yields the union of their footprints.
Traced pixel-boundary rings of these components are valid polygons, so
the buffer(0) branch is not taken here. -/
def extract_rasterized {h w : ℕ} (fg : Finset (Cell h w)) (a : ℚ) :
    Finset (Cell h w) :=
  Finset.univ.filter (fun q => ∃ c ∈ fg,
    q ∈ fillOf (component fg c)
      ∧ AREA_MIN ≤ ((fillOf (component fg c)).card : ℚ) * a)

/- ------------------------------------------------------------------
   Concrete inputs used to evaluate the definitions
   ------------------------------------------------------------------ -/

/-- A two-pixel clip: one soy pixel (class 39) and one class-0 pixel,
both inside the footprint. -/
def clipEx : List ClipPixel := [⟨39, true⟩, ⟨0, true⟩]

/-- A polygon of 0.5 ha whose footprint clip is clipEx. -/
def polyEx : FiltPoly := ⟨1 / 2, clipEx⟩

/-- Two agriculture pixels, only the first inside the AOI. -/
def pixelsRecall : List EvalPixel := [⟨39, true⟩, ⟨39, false⟩]

/-- A single agriculture pixel inside the AOI. -/
def pixelsOne : List EvalPixel := [⟨39, true⟩]

/-- A valid traced geometry of 1000 m². -/
def gOK : RawGeom := ⟨true, true, 1000, true, 1000⟩

/-- An invalid traced geometry of 1000 m² whose buffer(0) repair is
valid but has area 500 m² (the repair halves the area). -/
def gRepairChanged : RawGeom := ⟨true, false, 1000, true, 500⟩

/-- NPZ archive 'a.npz' with tile CRS 1 and one kept geometry. -/
def fileA : NpzFile := ⟨['a'], true, 1, [[gOK]]⟩

/-- NPZ archive 'b.npz' with tile CRS 2 and one kept geometry. -/
def fileB : NpzFile := ⟨['b'], true, 2, [[gOK]]⟩

/-- NPZ archive 'X.npz'. -/
def fileX : NpzFile := ⟨['X'], true, 1, [[gOK]]⟩

/-- NPZ archive 'X_masks.npz': same patch name as fileX after the
suffix strip. -/
def fileXmasks : NpzFile := ⟨['X', '_', 'm', 'a', 's', 'k', 's'], true, 1, [[gOK]]⟩

/-- NPZ archive whose only geometry needs the buffer(0) repair. -/
def fileRepair : NpzFile := ⟨['a'], true, 7, [[gRepairChanged]]⟩

/-- A reflectance pixel with red 0 and nir chosen so that the NDVI
denominator is exactly 1. -/
def ndviPixEx : NdviPixel := ⟨0, 999999 / 1000000, true⟩

/-- Ten copies of ndviPixEx: exactly the validity threshold. -/
def ndviListEx : List NdviPixel := List.replicate 10 ndviPixEx

/- ------------------------------------------------------------------
   Theorems: C1 (AttributeFilter overlap fraction)
   ------------------------------------------------------------------ -/

/-- Claim C1 (counterexample).  The claim says the overlap denominator D
counts ALL in-footprint non-masked pixels (not just nonzero ones).  On a
footprint holding one class-39 pixel and one class-0 pixel the code
computes 100 (count_nonzero excludes the class-0 pixel) while the
claimed formula gives 50, and with overlap_min_pct = 80 the code keeps a
polygon the claimed rule would drop. -/
theorem c1_counterexample :
    get_agriculture_coverage clipEx = 100 ∧ coverageSpec clipEx = 50 ∧
      filtrar_mascaras [polyEx] 0 1 80 = [polyEx] ∧
      ¬(80 ≤ coverageSpec polyEx.clip) := by
  refine ⟨?_, ?_, ?_, ?_⟩ <;>
    norm_num [get_agriculture_coverage, coverageSpec, filtrar_mascaras,
      clipEx, polyEx, filledValue, CLASSES_MAPBIOMAS_AGRICULTURA,
      List.countP_cons, List.countP_nil, List.filter_cons]

/-- Claim C1 (amended): overlap_pct = 100·N/D with D the count of
in-footprint pixels whose class code is NONZERO (class-0 pixels are
excluded along with masked ones), N the count of in-footprint pixels in
the target ClassGroup, overlap_pct = 0 when D = 0; a size-band survivor
is kept iff overlap_pct ≥ overlap_min_pct. -/
theorem c1_amended :
    (∀ clip, get_agriculture_coverage clip = coverageAmended clip) ∧
      ∀ polys area_min_ha area_max_ha agri_pct_min p,
        p ∈ filtrar_mascaras polys area_min_ha area_max_ha agri_pct_min ↔
          p ∈ polys ∧ area_min_ha ≤ p.area_ha ∧ p.area_ha ≤ area_max_ha ∧
            agri_pct_min ≤ get_agriculture_coverage p.clip := by
  constructor
  · intro clip
    unfold get_agriculture_coverage coverageAmended
    simp only [List.countP_map]
    have h1 : clip.countP ((fun v => decide (v ≠ 0)) ∘ filledValue)
        = clip.countP (fun p => decide (filledValue p ≠ 0)) := rfl
    have h2 : clip.countP
          ((fun v => decide (v ∈ CLASSES_MAPBIOMAS_AGRICULTURA)) ∘ filledValue)
        = clip.countP (fun p => decide (filledValue p ∈ CLASSES_MAPBIOMAS_AGRICULTURA)) := rfl
    rw [h1, h2]
    split
    · rfl
    · ring
  · intro polys area_min_ha area_max_ha agri_pct_min p
    simp only [filtrar_mascaras, List.mem_filter, decide_eq_true_iff, and_assoc]

/- ------------------------------------------------------------------
   Theorems: C8 (pixel area model)
   ------------------------------------------------------------------ -/

/-- Claim C8 (confirmed): the per-pixel area is
|res_x·111320·cos(lat_center)·res_y·111320| for a geographic CRS (the
cosine correction on the x axis only, lat_center the latitude at the
raster's vertical center, in radians) and |res_x·res_y| for a planar
CRS. -/
theorem c8_pixel_area (res0 res1 bottom top : ℝ) (geo : Bool) :
    get_pixel_area_m2 res0 res1 geo bottom top =
      if geo then
        |res0 * 111320 * Real.cos ((bottom + top) / 2 * Real.pi / 180)
          * res1 * 111320|
      else |res0 * res1| := by
  unfold get_pixel_area_m2
  split
  · show |res0 * 111320 * Real.cos ((bottom + top) / 2 * Real.pi / 180)
        * (res1 * 111320)|
      = |res0 * 111320 * Real.cos ((bottom + top) / 2 * Real.pi / 180)
        * res1 * 111320|
    have harg : res0 * 111320 * Real.cos ((bottom + top) / 2 * Real.pi / 180)
        * (res1 * 111320)
      = res0 * 111320 * Real.cos ((bottom + top) / 2 * Real.pi / 180)
        * res1 * 111320 := by ring
    rw [harg]
  · rfl

/- ------------------------------------------------------------------
   Theorems: C3 (recall/precision ranges)
   ------------------------------------------------------------------ -/

/-- Claim C3 (counterexample).  The claim says recall never exceeds 100.
With one agriculture pixel inside the AOI, a second agriculture pixel
outside it, and a catalog covering both pixels, the reference area (AOI
only) is 1 ha while the intersection (full grid) is 2 ha: recall =
200. -/
theorem c3_counterexample :
    calcular_metricas_segmentacao [[0, 1]] pixelsRecall 10000
        (calcular_area_agricola_total pixelsRecall 10000) = some ⟨200, 100⟩ ∧
      ¬((200 : ℚ) ≤ 100) := by
  constructor
  · norm_num [calcular_metricas_segmentacao, rasterize_catalog,
      calcular_area_agricola_total, pixelsRecall, enumIdx,
      CLASSES_MAPBIOMAS_AGRICULTURA, List.countP_cons, List.countP_nil]
  · norm_num

/-- Claim C3 (amended): precision lies in [0,100] and recall is
nonnegative, each is 0 (never undefined) when its denominator is not
positive, but recall is NOT bounded by 100: the reference-area
denominator is restricted to the AOI while the intersection numerator
uses the whole raster grid. -/
theorem c3_amended (catalog : List (List ℕ)) (pixels : List EvalPixel)
    (pixel_area_m2 area_ref : ℚ) (m : Metrics) (ha : 0 ≤ pixel_area_m2)
    (hm : calcular_metricas_segmentacao catalog pixels pixel_area_m2 area_ref
      = some m) :
    0 ≤ m.precision_pct ∧ m.precision_pct ≤ 100 ∧
      (¬(((enumIdx 0 pixels).countP
            (fun ip => catalog.any (fun g => g.contains ip.1)) : ℚ)
          * (pixel_area_m2 / 10000) > 0) → m.precision_pct = 0) ∧
      0 ≤ m.recall_pct ∧ (¬area_ref > 0 → m.recall_pct = 0) := by
  unfold calcular_metricas_segmentacao rasterize_catalog at hm
  by_cases hc : catalog.isEmpty
  · simp [hc] at hm
  · simp only [hc, Bool.false_eq_true, if_false, Option.some.injEq] at hm
    subst hm
    set seg : ℕ → Bool := fun i => catalog.any (fun g => g.contains i) with hseg
    set I := (enumIdx 0 pixels).countP
      (fun ip => seg ip.1 && decide (ip.2.value ∈ CLASSES_MAPBIOMAS_AGRICULTURA))
      with hI
    set S := (enumIdx 0 pixels).countP (fun ip => seg ip.1) with hS
    have hIS : I ≤ S := by
      rw [hI, hS]
      apply List.countP_mono_left
      intro x _ hx
      simp only [Bool.and_eq_true] at hx
      exact hx.1
    have haHa : 0 ≤ pixel_area_m2 / 10000 := by positivity
    have hnum : (0 : ℚ) ≤ (I : ℚ) * (pixel_area_m2 / 10000) :=
      mul_nonneg (Nat.cast_nonneg I) haHa
    have hmono : (I : ℚ) * (pixel_area_m2 / 10000)
        ≤ (S : ℚ) * (pixel_area_m2 / 10000) :=
      mul_le_mul_of_nonneg_right (by exact_mod_cast hIS) haHa
    have hScast : (S : ℚ) = ((enumIdx 0 pixels).countP
        (fun ip => catalog.any (fun g => g.contains ip.1)) : ℚ) := by
      rw [hS]
    refine ⟨?_, ?_, ?_, ?_, ?_⟩
    · dsimp only
      split
      · rename_i hpos
        exact mul_nonneg (div_nonneg hnum (le_of_lt hpos)) (by norm_num)
      · exact le_refl 0
    · dsimp only
      split
      · rename_i hpos
        have h1 : (I : ℚ) * (pixel_area_m2 / 10000)
            / ((S : ℚ) * (pixel_area_m2 / 10000)) ≤ 1 :=
          (div_le_one hpos).2 hmono
        linarith
      · norm_num
    · intro hp
      rw [← hScast] at hp
      dsimp only
      simp only [if_neg hp]
    · dsimp only
      split
      · rename_i hpos
        exact mul_nonneg (div_nonneg hnum (le_of_lt hpos)) (by norm_num)
      · exact le_refl 0
    · intro hr
      dsimp only
      simp only [if_neg hr]

/-- Claim C3 witness: a one-pixel grid fully covered gives recall 100,
precision 100, inside the proved bounds. -/
theorem c3_amended_witness :
    0 ≤ (Metrics.mk 100 100).precision_pct ∧
      (Metrics.mk 100 100).precision_pct ≤ 100 ∧
      (¬(((enumIdx 0 pixelsOne).countP
            (fun ip => ([[0]] : List (List ℕ)).any (fun g => g.contains ip.1)) : ℚ)
          * ((10000 : ℚ) / 10000) > 0) → (Metrics.mk 100 100).precision_pct = 0) ∧
      0 ≤ (Metrics.mk 100 100).recall_pct ∧
      (¬(1 : ℚ) > 0 → (Metrics.mk 100 100).recall_pct = 0) :=
  c3_amended [[0]] pixelsOne 10000 1 ⟨100, 100⟩ (by norm_num)
    (by norm_num [calcular_metricas_segmentacao, rasterize_catalog,
      pixelsOne, enumIdx, CLASSES_MAPBIOMAS_AGRICULTURA,
      List.countP_cons, List.countP_nil])

/- ------------------------------------------------------------------
   Theorems: C6 (fatal vs non-fatal evaluator outcomes)
   ------------------------------------------------------------------ -/

/-- Claim C6 (counterexample).  The claim says an empty polygon catalog
is not fatal and yields recall = precision = 0.  With a nonzero
reference area and an empty catalog the stage instead dies on the
uncaught ValueError of rasterize (no report is produced). -/
theorem c6_counterexample :
    analise_main [] pixelsOne 10000 = RunResult.rasterizeError ∧
      RunResult.rasterizeError ≠ RunResult.report ⟨0, 0⟩ := by
  constructor
  · norm_num [analise_main, calcular_area_agricola_total, pixelsOne,
      calcular_metricas_segmentacao, rasterize_catalog,
      CLASSES_MAPBIOMAS_AGRICULTURA, List.countP_cons, List.countP_nil]
  · simp

/-- Claim C6 (amended): a zero reference area aborts the stage with the
distinct critical report and no metrics; a LITERALLY empty catalog is
also fatal (rasterize raises ValueError, which main does not catch),
reported distinctly from the reference-area abort; the recoverable
recall = precision = 0 outcome belongs to a nonempty catalog that
rasterizes to zero pixels. -/
theorem c6_amended (catalog : List (List ℕ)) (pixels : List EvalPixel)
    (a : ℚ) :
    (analise_main catalog pixels a = RunResult.refZeroError ↔
        calcular_area_agricola_total pixels a = 0) ∧
      (calcular_metricas_segmentacao catalog pixels a
          (calcular_area_agricola_total pixels a) = none ↔ catalog = []) ∧
      RunResult.refZeroError ≠ RunResult.rasterizeError ∧
      (calcular_area_agricola_total pixels a ≠ 0 → catalog ≠ [] →
        (enumIdx 0 pixels).countP
            (fun ip => catalog.any (fun g => g.contains ip.1)) = 0 →
        analise_main catalog pixels a = RunResult.report ⟨0, 0⟩) := by
  refine ⟨?_, ?_, by simp, ?_⟩
  · unfold analise_main
    by_cases hz : calcular_area_agricola_total pixels a = 0
    · simp [hz]
    · simp only [hz, if_neg hz, iff_false]
      cases hmet : calcular_metricas_segmentacao catalog pixels a
          (calcular_area_agricola_total pixels a) with
      | none => simp
      | some m => simp
  · unfold calcular_metricas_segmentacao rasterize_catalog
    by_cases hc : catalog.isEmpty
    · simp [hc, List.isEmpty_iff.1 hc]
    · simp only [hc, Bool.false_eq_true, if_false]
      constructor
      · intro habs
        exact absurd habs (by simp)
      · intro habs
        subst habs
        simp at hc
  · intro hz hne hseg
    unfold analise_main
    rw [if_neg hz]
    unfold calcular_metricas_segmentacao rasterize_catalog
    have hc : catalog.isEmpty = false := by
      cases catalog with
      | nil => exact absurd rfl hne
      | cons x l => rfl
    simp only [hc, Bool.false_eq_true, if_false]
    have hIle : (enumIdx 0 pixels).countP
        (fun ip => (catalog.any (fun g => g.contains ip.1))
          && decide (ip.2.value ∈ CLASSES_MAPBIOMAS_AGRICULTURA))
        ≤ (enumIdx 0 pixels).countP
          (fun ip => catalog.any (fun g => g.contains ip.1)) := by
      apply List.countP_mono_left
      intro x _ hx
      simp only [Bool.and_eq_true] at hx
      exact hx.1
    rw [hseg] at hIle
    have hI0 : (enumIdx 0 pixels).countP
        (fun ip => (catalog.any (fun g => g.contains ip.1))
          && decide (ip.2.value ∈ CLASSES_MAPBIOMAS_AGRICULTURA)) = 0 :=
      Nat.le_zero.1 hIle
    rw [hI0, hseg]
    simp only [Nat.cast_zero, zero_mul, zero_div]
    norm_num

/-- Claim C6 witness: one AOI agriculture pixel gives a nonzero
reference area; the catalog [[5]] is nonempty but covers no grid pixel,
so the stage reports recall = precision = 0 without aborting. -/
theorem c6_amended_witness :
    analise_main [[5]] pixelsOne 10000 = RunResult.report ⟨0, 0⟩ :=
  (c6_amended [[5]] pixelsOne 10000).2.2.2
    (by norm_num [calcular_area_agricola_total, pixelsOne,
      CLASSES_MAPBIOMAS_AGRICULTURA, List.countP_cons, List.countP_nil])
    (by simp)
    (by norm_num [pixelsOne, enumIdx, List.countP_cons, List.countP_nil])

/- ------------------------------------------------------------------
   Theorems: C7 (NDVI pixel validity, nullability, cv)
   ------------------------------------------------------------------ -/

/-- A clipped pixel survives the NDVI mask-and-range filter iff it is in
the footprint, its index denominator is nonzero (finite float result)
and the index lies in [-1, 1]. -/
theorem valid_ndvi_isSome (p : NdviPixel) :
    (valid_ndvi p).isSome = ndviValidB p := by
  unfold valid_ndvi ndvi_value ndviValidB
  by_cases hfp : p.inFootprint
  · by_cases hden : p.nir + p.red + NDVI_EPS = 0
    · simp [hfp, hden]
    · by_cases h1 : -1 ≤ (p.nir - p.red) / (p.nir + p.red + NDVI_EPS)
      · by_cases h2 : (p.nir - p.red) / (p.nir + p.red + NDVI_EPS) ≤ 1
        · simp [hfp, hden, h1, h2]
        · simp [hfp, hden, h1, h2]
      · simp [hfp, hden, h1]
  · simp [hfp]

/-- The number of surviving NDVI values is the count of valid pixels. -/
theorem pixels_validos_length (l : List NdviPixel) :
    (pixels_validos l).length = l.countP ndviValidB := by
  induction l with
  | nil => rfl
  | cons p t ih =>
    unfold pixels_validos at ih ⊢
    rw [List.filterMap_cons, List.countP_cons]
    cases hv : valid_ndvi p with
    | none =>
      have hb : ndviValidB p = false := by
        rw [← valid_ndvi_isSome, hv]
        rfl
      simp [hb, ih]
    | some v =>
      have hb : ndviValidB p = true := by
        rw [← valid_ndvi_isSome, hv]
        rfl
      simp [hb, ih]

/-- Claim C7 (confirmed): pixels with a non-finite or out-of-range index
(or outside the footprint) are discarded; the statistics are absent
(`none`, not an error) exactly when fewer than 10 valid pixels remain;
otherwise the attached coefficient of variation is std/mean·100, and 0
when the mean is 0. -/
theorem c7_ndvi_stats (l : List NdviPixel) :
    (calcular_ndvi_stats l = none ↔ l.countP ndviValidB < 10) ∧
      ∀ mv : ℚ × ℚ, calcular_ndvi_stats l = some mv →
        ((mv.1 = 0 → ndvi_cv (pixels_validos l) = 0) ∧
          (mv.1 ≠ 0 → ndvi_cv (pixels_validos l)
            = ndvi_std (pixels_validos l) / ((mv.1 : ℚ) : ℝ) * 100)) := by
  constructor
  · unfold calcular_ndvi_stats
    by_cases he : l.isEmpty
    · have hnil : l = [] := List.isEmpty_iff.1 he
      subst hnil
      simp
    · simp only [he, Bool.false_eq_true, if_false]
      rw [← pixels_validos_length]
      by_cases hlen : (pixels_validos l).length < 10
      · simp [hlen]
      · simp [hlen]
  · intro mv hmv
    unfold calcular_ndvi_stats at hmv
    by_cases he : l.isEmpty
    · simp [he] at hmv
    · simp only [he, Bool.false_eq_true, if_false] at hmv
      by_cases hlen : (pixels_validos l).length < 10
      · simp [hlen] at hmv
      · simp only [hlen, if_false, Option.some.injEq] at hmv
        subst hmv
        constructor
        · intro h0
          simp only at h0
          simp [ndvi_cv, h0]
        · intro hne
          simp only at hne
          simp [ndvi_cv, hne]

/-- Claim C7 witness: ten identical pixels with red 0 and nir
999999/1000000 give exactly 10 valid values with mean 999999/1000000 and
variance 0, and the cv equation holds at that nonzero mean. -/
theorem c7_ndvi_stats_witness :
    calcular_ndvi_stats ndviListEx = some (999999 / 1000000, 0) ∧
      ndvi_cv (pixels_validos ndviListEx)
        = ndvi_std (pixels_validos ndviListEx)
          / ((999999 / 1000000 : ℚ) : ℝ) * 100 := by
  have h : calcular_ndvi_stats ndviListEx = some (999999 / 1000000, 0) := by
    norm_num [calcular_ndvi_stats, pixels_validos, valid_ndvi, ndvi_value,
      ndviListEx, ndviPixEx, NDVI_EPS, List.replicate, List.filterMap_cons,
      ndvi_mean, ndvi_var]
  exact ⟨h, ((c7_ndvi_stats ndviListEx).2 (999999 / 1000000, 0) h).2
    (by norm_num)⟩

/- ------------------------------------------------------------------
   Theorems: shared facts about the aggregation loop
   ------------------------------------------------------------------ -/

/-- A kept geometry has area at least AREA_MIN. -/
theorem keepGeom_area {g : RawGeom} {a : ℚ} (h : keepGeom g = some a) :
    AREA_MIN ≤ a := by
  unfold keepGeom at h
  split_ifs at h <;> simp_all

/-- Every row contributed by one NPZ file is an entryOf of that file's
patch name and CRS with area at least AREA_MIN. -/
theorem fileEntries_shape {f : NpzFile} {e : CatalogEntry}
    (h : e ∈ fileEntries f) :
    ∃ m i a, AREA_MIN ≤ a
      ∧ e = entryOf (patchName f.stem) f.patchCrs m i a := by
  unfold fileEntries at h
  rcases List.mem_flatMap.1 h with ⟨mi, hmi, h2⟩
  rcases List.mem_flatMap.1 h2 with ⟨ig, hig, h3⟩
  cases hk : keepGeom ig.2 with
  | none => simp [hk] at h3
  | some a =>
    simp only [hk, List.mem_singleton] at h3
    exact ⟨mi.1, ig.1, a, keepGeom_area hk, h3⟩

/-- Every catalog row comes from some processed file. -/
theorem mem_converterGo {files : List NpzFile} {c : Option ℕ}
    {e : CatalogEntry} (h : e ∈ (converterGo files c).1) :
    ∃ f ∈ files, f.patchExists = true ∧ e ∈ fileEntries f := by
  induction files generalizing c with
  | nil => simp [converterGo] at h
  | cons f rest ih =>
    by_cases hp : f.patchExists
    · rw [converterGo] at h
      rw [if_pos hp] at h
      rcases List.mem_append.1 h with h | h
      · exact ⟨f, List.mem_cons_self f rest, hp, h⟩
      · obtain ⟨f2, hf2, hpe, he⟩ := ih h
        exact ⟨f2, List.mem_cons_of_mem f hf2, hpe, he⟩
    · rw [converterGo] at h
      rw [if_neg hp] at h
      obtain ⟨f2, hf2, hpe, he⟩ := ih h
      exact ⟨f2, List.mem_cons_of_mem f hf2, hpe, he⟩

/-- Once a CRS has been recorded it is never overwritten. -/
theorem converterGo_some (files : List NpzFile) (x : ℕ) :
    (converterGo files (some x)).2 = some x := by
  induction files with
  | nil => rfl
  | cons f rest ih =>
    by_cases hp : f.patchExists
    · rw [converterGo, if_pos hp]
      simpa using ih
    · rw [converterGo, if_neg hp]
      exact ih

/- ------------------------------------------------------------------
   Theorems: C10 (hardcoded 100 m² extraction cutoff)
   ------------------------------------------------------------------ -/

/-- Claim C10 (confirmed): every polygon placed into the aggregated
catalog has planar area of at least AREA_MIN = 100 m² in its tile CRS
(the cutoff is applied at extraction, before the configurable size
band of filtrar_mascaras), and the stored hectare attribute is that
area divided by 10000. -/
theorem c10_extraction_area_floor (files : List NpzFile)
    (e : CatalogEntry) (h : e ∈ (converter_npz_para_shp files).1) :
    AREA_MIN ≤ e.geomArea ∧ e.area_ha = e.geomArea / 10000 := by
  obtain ⟨f, _, _, he⟩ := mem_converterGo h
  obtain ⟨m, i, a, ha, rfl⟩ := fileEntries_shape he
  exact ⟨ha, rfl⟩

/-- Claim C10 witness: the single kept polygon of fileA has area
1000 m² ≥ 100 m². -/
theorem c10_extraction_area_floor_witness :
    entryOf ['a'] 1 0 0 1000 ∈ (converter_npz_para_shp [fileA]).1 ∧
      AREA_MIN ≤ (entryOf ['a'] 1 0 0 1000).geomArea ∧
      (entryOf ['a'] 1 0 0 1000).area_ha
        = (entryOf ['a'] 1 0 0 1000).geomArea / 10000 := by
  have hmem : entryOf ['a'] 1 0 0 1000 ∈ (converter_npz_para_shp [fileA]).1 := by
    norm_num [converter_npz_para_shp, converterGo, fileA, fileEntries,
      enumIdx, keepGeom, gOK, AREA_MIN, entryOf,
      (by decide : patchName ['a'] = ['a']),
      Option.getD, List.flatMap_cons, List.flatMap_nil]
  exact ⟨hmem, c10_extraction_area_floor [fileA] _ hmem⟩

/- ------------------------------------------------------------------
   Theorems: C4 (canonical CRS and reprojection)
   ------------------------------------------------------------------ -/

/-- Claim C4 (counterexample).  With two tiles of different CRS the
catalog is labelled with the first tile's CRS but the second tile's
geometry is stored with coordinates still expressed in CRS 2 — no
reprojection happens before insertion. -/
theorem c4_counterexample :
    (converter_npz_para_shp [fileA, fileB]).2 = some 1 ∧
      ∃ e ∈ (converter_npz_para_shp [fileA, fileB]).1, e.frameCrs ≠ 1 := by
  constructor
  · norm_num [converter_npz_para_shp, converterGo, fileA, fileB, Option.getD]
  · refine ⟨entryOf ['b'] 2 0 0 1000, ?_, by norm_num [entryOf]⟩
    norm_num [converter_npz_para_shp, converterGo, fileA, fileB, fileEntries,
      enumIdx, keepGeom, gOK, AREA_MIN, entryOf,
      (by decide : patchName ['a'] = ['a']),
      (by decide : patchName ['b'] = ['b']),
      Option.getD, List.flatMap_cons, List.flatMap_nil]

/-- Claim C4 (amended): the CRS of the first successfully processed
tile becomes the catalog's declared CRS, but later tiles' geometries
are NOT reprojected before insertion: every stored geometry keeps the
coordinates of its own tile's CRS and is merely labelled with the
canonical one. -/
theorem c4_crs_amended (files : List NpzFile) :
    (converter_npz_para_shp files).2 =
        (files.find? (fun f => f.patchExists)).map (fun f => f.patchCrs) ∧
      ∀ e ∈ (converter_npz_para_shp files).1,
        ∃ f ∈ files, f.patchExists = true ∧ e.frameCrs = f.patchCrs := by
  constructor
  · unfold converter_npz_para_shp
    induction files with
    | nil => rfl
    | cons f rest ih =>
      by_cases hp : f.patchExists
      · rw [converterGo, if_pos hp, List.find?_cons_of_pos _ hp]
        simpa using converterGo_some rest f.patchCrs
      · rw [converterGo, if_neg hp,
          List.find?_cons_of_neg _ (by simpa using hp)]
        exact ih
  · intro e he
    obtain ⟨f, hf, hpe, hfe⟩ := mem_converterGo he
    obtain ⟨m, i, a, _, rfl⟩ := fileEntries_shape hfe
    exact ⟨f, hf, hpe, rfl⟩

/-- Claim C4 witness: on the single-tile input the label is CRS 1 and
the single row keeps its native frame CRS 1. -/
theorem c4_crs_amended_witness :
    (converter_npz_para_shp [fileA]).2 = some 1 ∧
      ∃ f ∈ [fileA], f.patchExists = true
        ∧ (entryOf ['a'] 1 0 0 1000).frameCrs = f.patchCrs := by
  constructor
  · exact ((c4_crs_amended [fileA]).1).trans (by norm_num [fileA])
  · apply (c4_crs_amended [fileA]).2
    norm_num [converter_npz_para_shp, converterGo, fileA, fileEntries,
      enumIdx, keepGeom, gOK, AREA_MIN, entryOf,
      (by decide : patchName ['a'] = ['a']),
      Option.getD, List.flatMap_cons, List.flatMap_nil]

/- ------------------------------------------------------------------
   Theorems: C5 (validity repair without tolerance or counter)
   ------------------------------------------------------------------ -/

/-- Claim C5 (counterexample).  The claim says a repaired feature whose
area moved by more than 0.1% of the raw traced area is dropped and
counted.  fileRepair's geometry is invalid with raw area 1000; its
buffer(0) repair is valid with area 500 (a 50% change), yet the feature
is KEPT in the catalog and nothing is counted. -/
theorem c5_repair_counterexample :
    (converter_npz_para_shp [fileRepair]).1 = [entryOf ['a'] 7 0 0 500] ∧
      gRepairChanged.isValid = false ∧
      keepGeom gRepairChanged = some gRepairChanged.bufferArea ∧
      ¬(|gRepairChanged.bufferArea - gRepairChanged.area|
          ≤ (1 / 1000) * gRepairChanged.area) := by
  refine ⟨?_, rfl, ?_, ?_⟩
  · norm_num [converter_npz_para_shp, converterGo, fileRepair, fileEntries,
      enumIdx, keepGeom, gRepairChanged, AREA_MIN, entryOf,
      (by decide : patchName ['a'] = ['a']),
      Option.getD, List.flatMap_cons, List.flatMap_nil]
  · norm_num [keepGeom, gRepairChanged, AREA_MIN]
  · norm_num [gRepairChanged]

/-- Claim C5 (amended): the repair path keeps a feature iff its
construction succeeded and either the raw geometry is already valid
with area ≥ AREA_MIN, or it is invalid and the buffer(0) repair is
valid with area ≥ AREA_MIN.  No area-change tolerance is checked, no
repair-failure counter exists, and a skipped feature never aborts the
batch (the loop is total). -/
theorem c5_repair_amended (g : RawGeom) :
    (keepGeom g).isSome = true ↔
      (g.constructionOk = true ∧
        ((g.isValid = true ∧ AREA_MIN ≤ g.area) ∨
          (g.isValid = false ∧ g.bufferValid = true
            ∧ AREA_MIN ≤ g.bufferArea))) := by
  unfold keepGeom
  cases hok : g.constructionOk with
  | false => simp [hok]
  | true =>
    cases hv : g.isValid with
    | true =>
      by_cases ha : AREA_MIN ≤ g.area
      · simp [hok, hv, ha]
      · simp [hok, hv, ha]
    | false =>
      by_cases hb : g.bufferValid ∧ AREA_MIN ≤ g.bufferArea
      · simp [hok, hv, hb, hb.1, hb.2]
      · simp only [hok, hv, hb]
        simp [hb]

/- ------------------------------------------------------------------
   Theorems: decimal id encoding
   ------------------------------------------------------------------ -/

/-- Round trip of a decimal digit through its character. -/
theorem charVal10_digitChar10 : ∀ d : ℕ, d < 10 →
    charVal10 (digitChar10 d) = d := by
  decide

/-- Digit characters pass the digit test. -/
theorem isDigit10_digitChar10 : ∀ d : ℕ, d < 10 →
    isDigit10 (digitChar10 d) = true := by
  decide

/-- The underscore is not a digit character. -/
theorem isDigit10_underscore : isDigit10 underscoreChar = false := by
  decide

/-- Every character of a printed number is a digit. -/
theorem natRepr_all_digits (n : ℕ) : (natRepr n).all isDigit10 = true := by
  unfold natRepr
  split
  · decide
  · rw [List.all_reverse, List.all_eq_true]
    intro c hc
    rcases List.mem_map.1 hc with ⟨d, hd, rfl⟩
    exact isDigit10_digitChar10 d (Nat.digits_lt_base (by norm_num) hd)

/-- Printing then decoding a number is the identity. -/
theorem decodeNat_natRepr (n : ℕ) : decodeNat (natRepr n) = n := by
  unfold natRepr decodeNat
  split
  · rename_i h
    subst h
    rfl
  · rw [List.reverse_reverse, List.map_map]
    have h2 : (Nat.digits 10 n).map (charVal10 ∘ digitChar10)
        = (Nat.digits 10 n).map id :=
      List.map_congr_left (fun d hd =>
        charVal10_digitChar10 d (Nat.digits_lt_base (by norm_num) hd))
    rw [h2, List.map_id]
    exact Nat.ofDigits_digits 10 n

/-- natRepr is injective. -/
theorem natRepr_inj {a b : ℕ} (h : natRepr a = natRepr b) : a = b := by
  rw [← decodeNat_natRepr a, ← decodeNat_natRepr b, h]

/-- Splitting a list at the first underscore after a digit run is
unambiguous. -/
theorem digits_underscore_split : ∀ (r1 r2 t1 t2 : List Char),
    r1.all isDigit10 = true → r2.all isDigit10 = true →
    r1 ++ underscoreChar :: t1 = r2 ++ underscoreChar :: t2 →
    r1 = r2 ∧ t1 = t2 := by
  intro r1
  induction r1 with
  | nil =>
    intro r2 t1 t2 _ h2 heq
    cases r2 with
    | nil => simpa using heq
    | cons c r2 =>
      exfalso
      simp only [List.nil_append, List.cons_append, List.cons.injEq] at heq
      have hc : isDigit10 c = true := by
        have := List.all_eq_true.1 h2 c (List.mem_cons_self c r2)
        exact this
      rw [← heq.1] at hc
      rw [isDigit10_underscore] at hc
      exact Bool.false_ne_true hc
  | cons c r1 ih =>
    intro r2 t1 t2 h1 h2 heq
    cases r2 with
    | nil =>
      exfalso
      simp only [List.nil_append, List.cons_append, List.cons.injEq] at heq
      have hc : isDigit10 c = true :=
        List.all_eq_true.1 h1 c (List.mem_cons_self c r1)
      rw [heq.1] at hc
      rw [isDigit10_underscore] at hc
      exact Bool.false_ne_true hc
    | cons d r2 =>
      simp only [List.cons_append, List.cons.injEq] at heq
      obtain ⟨hcd, htl⟩ := heq
      have h1t : r1.all isDigit10 = true := by
        simp only [List.all_cons, Bool.and_eq_true] at h1
        exact h1.2
      have h2t : r2.all isDigit10 = true := by
        simp only [List.all_cons, Bool.and_eq_true] at h2
        exact h2.2
      obtain ⟨hr, ht⟩ := ih r2 t1 t2 h1t h2t htl
      exact ⟨by rw [hcd, hr], ht⟩

/-- The reversed form of a feature id. -/
theorem reverse_mkMaskId (p : List Char) (m i : ℕ) :
    (mkMaskId p m i).reverse =
      (natRepr i).reverse
        ++ underscoreChar :: ((natRepr m).reverse
          ++ underscoreChar :: p.reverse) := by
  simp [mkMaskId, List.reverse_append, List.reverse_cons, List.append_assoc]

/-- The feature id scheme f"{patch}_{m}_{i}" is injective: patch name,
mask index and ring index are all recovered from the id string. -/
theorem mkMaskId_inj {p1 p2 : List Char} {m1 i1 m2 i2 : ℕ}
    (h : mkMaskId p1 m1 i1 = mkMaskId p2 m2 i2) :
    p1 = p2 ∧ m1 = m2 ∧ i1 = i2 := by
  have hrev := congrArg List.reverse h
  rw [reverse_mkMaskId, reverse_mkMaskId] at hrev
  obtain ⟨hi, hrest⟩ := digits_underscore_split _ _ _ _
    (by rw [List.all_reverse]; exact natRepr_all_digits i1)
    (by rw [List.all_reverse]; exact natRepr_all_digits i2) hrev
  obtain ⟨hm, hp⟩ := digits_underscore_split _ _ _ _
    (by rw [List.all_reverse]; exact natRepr_all_digits m1)
    (by rw [List.all_reverse]; exact natRepr_all_digits m2) hrest
  refine ⟨?_, ?_, ?_⟩
  · have := congrArg List.reverse hp
    simpa using this
  · exact natRepr_inj (by
      have := congrArg List.reverse hm
      simpa using this)
  · exact natRepr_inj (by
      have := congrArg List.reverse hi
      simpa using this)

/- ------------------------------------------------------------------
   Theorems: enumerate indices
   ------------------------------------------------------------------ -/

/-- Members of enumIdx carry indices at least the start index. -/
theorem mem_enumIdx {α : Type} : ∀ {n : ℕ} {l : List α} {q : ℕ × α},
    q ∈ enumIdx n l → n ≤ q.1 := by
  intro n l
  induction l generalizing n with
  | nil =>
    intro q h
    simp [enumIdx] at h
  | cons a t ih =>
    intro q h
    rw [enumIdx] at h
    rcases List.mem_cons.1 h with h | h
    · subst h
      exact le_refl n
    · exact le_trans (Nat.le_succ n) (ih h)

/-- enumIdx produces strictly increasing indices. -/
theorem enumIdx_pairwise_lt {α : Type} : ∀ (n : ℕ) (l : List α),
    (enumIdx n l).Pairwise (fun a b => a.1 < b.1) := by
  intro n l
  induction l generalizing n with
  | nil => exact List.Pairwise.nil
  | cons a t ih =>
    rw [enumIdx]
    apply List.Pairwise.cons
    · intro b hb
      have := mem_enumIdx hb
      simp only
      omega
    · exact ih (n + 1)

/- ------------------------------------------------------------------
   Theorems: C9 (feature id uniqueness)
   ------------------------------------------------------------------ -/

/-- Every id in the block emitted for one raw geometry is the id of its
(patch, mask index, ring index) triple. -/
theorem mem_keepBlock_id {p : List Char} {crs m i : ℕ} {g : RawGeom}
    {x : List Char}
    (h : x ∈ (match keepGeom g with
      | some a => [entryOf p crs m i a]
      | none => ([] : List CatalogEntry)).map
        (fun e : CatalogEntry => e.mask_id)) :
    x = mkMaskId p m i := by
  cases hk : keepGeom g with
  | none => simp [hk] at h
  | some a =>
    simp only [hk, List.map_cons, List.map_nil, List.mem_singleton] at h
    exact h

/-- The ids contributed by a single NPZ file are pairwise distinct: the
mask index and ring index are encoded in the id and enumerate indices
are strictly increasing. -/
theorem fileEntries_ids_nodup (f : NpzFile) :
    ((fileEntries f).map (fun e => e.mask_id)).Nodup := by
  unfold fileEntries
  rw [List.map_flatMap, List.nodup_flatMap]
  constructor
  · intro mi hmi
    rw [List.map_flatMap, List.nodup_flatMap]
    constructor
    · intro ig hig
      cases hk : keepGeom ig.2 <;> simp [hk]
    · apply (enumIdx_pairwise_lt 0 mi.2).imp
      intro a b hab x hxa hxb
      have ha := mem_keepBlock_id hxa
      have hb := mem_keepBlock_id hxb
      rw [ha] at hb
      have := (mkMaskId_inj hb).2.2
      omega
  · apply (enumIdx_pairwise_lt 0 f.masks).imp
    intro a b hab x hxa hxb
    simp only [List.map_flatMap] at hxa hxb
    rcases List.mem_flatMap.1 hxa with ⟨ig, _, hxa2⟩
    rcases List.mem_flatMap.1 hxb with ⟨ig2, _, hxb2⟩
    have ha := mem_keepBlock_id hxa2
    have hb := mem_keepBlock_id hxb2
    rw [ha] at hb
    have := (mkMaskId_inj hb).2.1
    omega

/-- The id of a row names its file's patch name. -/
theorem fileEntries_id_patch {f : NpzFile} {e : CatalogEntry}
    (h : e ∈ fileEntries f) :
    ∃ m i, e.mask_id = mkMaskId (patchName f.stem) m i := by
  obtain ⟨m, i, a, _, rfl⟩ := fileEntries_shape h
  exact ⟨m, i, rfl⟩

/-- Catalog ids are pairwise distinct as long as the processed files
have pairwise distinct stripped patch names. -/
theorem converterGo_ids_nodup : ∀ (files : List NpzFile) (c : Option ℕ),
    ((files.filter (fun f => f.patchExists)).map
      (fun f => patchName f.stem)).Nodup →
    (((converterGo files c).1).map (fun e => e.mask_id)).Nodup := by
  intro files
  induction files with
  | nil =>
    intro c _
    simp [converterGo]
  | cons f rest ih =>
    intro c h
    by_cases hp : f.patchExists
    · rw [converterGo, if_pos hp]
      rw [List.filter_cons_of_pos (by simpa using hp)] at h
      rw [List.map_cons, List.nodup_cons] at h
      rw [List.map_append, List.nodup_append]
      refine ⟨fileEntries_ids_nodup f, ih _ h.2, ?_⟩
      intro x hx1 hx2
      rcases List.mem_map.1 hx1 with ⟨e1, he1, hxe1⟩
      rcases List.mem_map.1 hx2 with ⟨e2, he2, hxe2⟩
      obtain ⟨m1, i1, hId1⟩ := fileEntries_id_patch he1
      obtain ⟨f2, hf2, hpe2, hfe2⟩ := mem_converterGo he2
      obtain ⟨m2, i2, hId2⟩ := fileEntries_id_patch hfe2
      have hids : mkMaskId (patchName f.stem) m1 i1
          = mkMaskId (patchName f2.stem) m2 i2 := by
        rw [← hId1, ← hId2, hxe1, hxe2]
      have hpn := (mkMaskId_inj hids).1
      apply h.1
      rw [hpn]
      exact List.mem_map.2 ⟨f2, List.mem_filter.2 ⟨hf2, by simpa using hpe2⟩, rfl⟩
    · rw [converterGo, if_neg hp]
      rw [List.filter_cons_of_neg (by simpa using hp)] at h
      exact ih c h

/-- Claim C9 (counterexample).  The claim says ids stay distinct even
when two archives map to the same patch name after the '_masks' strip.
With X.npz and X_masks.npz both present, both archives produce the id
"X_0_0" and the catalog ids are NOT pairwise distinct. -/
theorem c9_counterexample :
    ¬ (((converter_npz_para_shp [fileX, fileXmasks]).1.map
        (fun e => e.mask_id)).Nodup) := by
  norm_num [converter_npz_para_shp, converterGo, fileX, fileXmasks,
    fileEntries, enumIdx, keepGeom, gOK, AREA_MIN, entryOf,
    (by decide : patchName ['X'] = ['X']),
    (by decide : patchName ['X', '_', 'm', 'a', 's', 'k', 's'] = ['X']),
    Option.getD, List.flatMap_cons, List.flatMap_nil, List.nodup_cons]

/-- Claim C9 (amended): the (tile, mask index, ring index) id scheme is
injective, so catalog ids are pairwise distinct PROVIDED no two
processed archive file names map to the same patch name after the
'_masks' suffix strip; two archives sharing a stripped patch name (such
as X.npz and X_masks.npz) collide. -/
theorem c9_ids_amended (files : List NpzFile)
    (h : ((files.filter (fun f => f.patchExists)).map
      (fun f => patchName f.stem)).Nodup) :
    (((converter_npz_para_shp files).1).map (fun e => e.mask_id)).Nodup :=
  converterGo_ids_nodup files none h

/-- Claim C9 witness: X.npz and a.npz have distinct patch names, and
the resulting catalog ids are pairwise distinct. -/
theorem c9_ids_amended_witness :
    (((converter_npz_para_shp [fileX, fileA]).1).map
      (fun e => e.mask_id)).Nodup :=
  c9_ids_amended [fileX, fileA] (by decide)

/- ------------------------------------------------------------------
   Theorems: C2 (round-trip of extraction and rasterization)
   ------------------------------------------------------------------ -/

/-- The flood-fill start set stays inside the result. -/
theorem subset_iterate_grow {H W : ℕ} (allowed : Finset (Cell H W)) :
    ∀ (n : ℕ) (s : Finset (Cell H W)), s ⊆ (grow allowed)^[n] s := by
  intro n
  induction n with
  | zero =>
    intro s
    simp
  | succ k ih =>
    intro s
    rw [Function.iterate_succ_apply]
    exact le_trans (Finset.subset_union_left) (ih (grow allowed s))

/-- The flood fill stays inside any set containing the start and the
allowed cells. -/
theorem iterate_grow_subset {H W : ℕ} {allowed t : Finset (Cell H W)}
    (hall : allowed ⊆ t) :
    ∀ (n : ℕ) (s : Finset (Cell H W)), s ⊆ t → (grow allowed)^[n] s ⊆ t := by
  intro n
  induction n with
  | zero =>
    intro s hs
    simpa using hs
  | succ k ih =>
    intro s hs
    rw [Function.iterate_succ_apply]
    exact ih (grow allowed s)
      (Finset.union_subset hs (le_trans (Finset.filter_subset _ _) hall))

/-- A cell belongs to its own connected component. -/
theorem mem_component_self {H W : ℕ} (fg : Finset (Cell H W))
    (c : Cell H W) : c ∈ component fg c :=
  subset_iterate_grow fg (H * W) {c} (Finset.mem_singleton_self c)

/-- The component of a foreground cell contains only foreground cells. -/
theorem component_subset {H W : ℕ} {fg : Finset (Cell H W)} {c : Cell H W}
    (hc : c ∈ fg) : component fg c ⊆ fg :=
  iterate_grow_subset (le_refl fg) (H * W) {c}
    (Finset.singleton_subset_iff.2 hc)

/-- Claim C2 (counterexample).  The claim says the round-trip is exact
even for blobs smaller than 100 m².  A mask holding a single positive
pixel of 1 m² produces a traced polygon of area 1 < AREA_MIN, which the
extraction drops: the rasterization of the kept polygons is empty while
the mask is not. -/
theorem c2_counterexample :
    extract_rasterized (Finset.univ : Finset (Cell 1 1)) 1 = ∅ ∧
      (Finset.univ : Finset (Cell 1 1)) ≠ ∅ := by
  constructor
  · apply Finset.eq_empty_iff_forall_not_mem.2
    intro q hq
    rw [extract_rasterized, Finset.mem_filter] at hq
    obtain ⟨-, c, hc, hfill, harea⟩ := hq
    have hc0 : c = ((0 : Fin 1), (0 : Fin 1)) := Subsingleton.elim c _
    subst hc0
    have hcard : (fillOf (component (Finset.univ : Finset (Cell 1 1))
        ((0 : Fin 1), (0 : Fin 1)))).card = 1 := by decide
    rw [hcard] at harea
    norm_num [AREA_MIN] at harea
  · decide

/-- Claim C2 (amended): the round-trip is exact exactly on the masks
the claim excludes being needed: if every foreground component of the
mask has no enclosed background (no holes, so the kept exterior ring
covers just the component) and every component's footprint area reaches
the hardcoded AREA_MIN = 100 m² cutoff, then rasterizing the extracted
polygons reproduces the mask's positive pixels exactly.  Masks with
sub-cutoff blobs or with holes are not reproduced. -/
theorem c2_roundtrip_amended {H W : ℕ} (fg : Finset (Cell H W)) (a : ℚ)
    (hnohole : ∀ c ∈ fg, fillOf (component fg c) = component fg c)
    (hbig : ∀ c ∈ fg, AREA_MIN ≤ ((component fg c).card : ℚ) * a) :
    extract_rasterized fg a = fg := by
  ext q
  simp only [extract_rasterized, Finset.mem_filter, Finset.mem_univ,
    true_and]
  constructor
  · rintro ⟨c, hc, hq, _⟩
    rw [hnohole c hc] at hq
    exact component_subset hc hq
  · intro hq
    refine ⟨q, hq, ?_, ?_⟩
    · rw [hnohole q hq]
      exact mem_component_self fg q
    · rw [hnohole q hq]
      exact hbig q hq

/-- Claim C2 witness: a full 1×1 mask at 100 m² pixel area (a single
10 m × 10 m pixel) has one hole-free component of exactly the cutoff
area, and the round-trip is exact. -/
theorem c2_roundtrip_amended_witness :
    extract_rasterized (Finset.univ : Finset (Cell 1 1)) 100
      = Finset.univ :=
  c2_roundtrip_amended Finset.univ 100
    (by decide)
    (by
      intro c hc
      have hc0 : c = ((0 : Fin 1), (0 : Fin 1)) := Subsingleton.elim c _
      subst hc0
      have hcard : (component (Finset.univ : Finset (Cell 1 1))
          ((0 : Fin 1), (0 : Fin 1))).card = 1 := by decide
      rw [hcard]
      norm_num [AREA_MIN])
